import Mathlib

/-!
Shallow embedding of the "Do Meows" task-manager core
(`app/(tabs)/index.tsx` as documented in `03-your-project-explained.md`):
the task store (`handleAddTask`, `handleToggleComplete`, `handleDelete`)
and the feedback notification controller (`showFeedback`, the expiry
timer, the asset-error fallback flag).

Timers are modelled explicitly: the controller state carries the current
time, a list of pending timers (identifier, fire time) and the
`feedbackTimeoutRef` cell holding the identifier of the most recently
scheduled timer.  `clearTimeout` removes a timer from the pending list;
a timer may fire only while it is still pending and its fire time has
been reached, matching the single-threaded JS event loop.
-/

/-- Type `TaskType` from the source: one to-do record. -/
structure TaskType where
  id : String
  text : String
  completed : Bool
deriving Repr, DecidableEq

/-- Union `FeedbackType` from the source: the four feedback kinds. -/
inductive FeedbackType where
  | completed
  | deleted
  | added
  | uncompleted
deriving Repr, DecidableEq

/-- Constant `FEEDBACK_DURATION_MS = 3500` from the source. -/
def FEEDBACK_DURATION_MS : Nat := 3500

/-- The feedback controller's state: the `feedbackType` and
`feedbackImageError` pieces of React state, the `feedbackTimeoutRef`
mutable cell, plus an explicit model of the host's timer queue
(`now`, `pending`, fresh-identifier counter `nextTimerId`). -/
structure FeedbackState where
  now : Nat
  feedbackType : Option FeedbackType
  feedbackImageError : Bool
  feedbackTimeoutRef : Option Nat
  pending : List (Nat × Nat)
  nextTimerId : Nat
deriving Repr, DecidableEq

/-- The initial controller state (all React state at its `useState`
initial value, no timer pending, time zero). -/
def initFeedback : FeedbackState :=
  { now := 0, feedbackType := none, feedbackImageError := false,
    feedbackTimeoutRef := none, pending := [], nextTimerId := 0 }

/-- Host `clearTimeout(tid)`: the timer can no longer fire. -/
def clearTimeout (tid : Nat) (s : FeedbackState) : FeedbackState :=
  { s with pending := s.pending.filter (fun p => p.1 ≠ tid) }

/-- Function `showFeedback` from the source: cancel the timer held in
`feedbackTimeoutRef` (if any), clear the image-error flag, set the
feedback type, and schedule a fresh expiry timer for
`FEEDBACK_DURATION_MS` from now, storing its identifier in the ref. -/
def showFeedback (type : FeedbackType) (s : FeedbackState) : FeedbackState :=
  let s1 :=
    match s.feedbackTimeoutRef with
    | some tid => clearTimeout tid s
    | none => s
  { s1 with
    feedbackImageError := false
    feedbackType := some type
    feedbackTimeoutRef := some s1.nextTimerId
    pending := s1.pending ++ [(s1.nextTimerId, s1.now + FEEDBACK_DURATION_MS)]
    nextTimerId := s1.nextTimerId + 1 }

/-- Time passes by `d` milliseconds; no other state changes (firing a
due timer is a separate step of the host event loop). -/
def elapse (d : Nat) (s : FeedbackState) : FeedbackState :=
  { s with now := s.now + d }

/-- The host event loop fires timer `tid`: only possible while `tid` is
still pending and its fire time has been reached.  The callback passed
to `setTimeout` in `showFeedback` runs: `setFeedbackType(null)` and
`setFeedbackImageError(false)`.  A cancelled or already-fired timer is
a no-op. -/
def fireTimer (tid : Nat) (s : FeedbackState) : FeedbackState :=
  match s.pending.find? (fun p => p.1 == tid) with
  | some p =>
      if p.2 ≤ s.now then
        { s with
          pending := s.pending.filter (fun q => q.1 ≠ tid)
          feedbackType := none
          feedbackImageError := false }
      else s
  | none => s

/-- Modelled from the spec: the asset-render failure callback is not in
the documented source excerpt (the `Image` element's error handler);
per the spec it "is set true externally when the associated render of
the asset fails", touching only the fallback flag. -/
def onImageError (s : FeedbackState) : FeedbackState :=
  { s with feedbackImageError := true }

/-- The screen's state: the task list, the input field, and the
feedback controller. -/
structure AppState where
  tasks : List TaskType
  inputText : String
  fb : FeedbackState
deriving Repr, DecidableEq

/-- JS `String.prototype.trim()`: drop leading and trailing whitespace.
Embedded structurally over the string's character list (Lean's own
`String.trim` is defined by well-founded recursion and does not reduce
in the kernel, so this transparent equivalent is used instead). -/
def strTrim (s : String) : String :=
  String.mk (((s.data.dropWhile Char.isWhitespace).reverse.dropWhile
    Char.isWhitespace).reverse)

/-- Handler `handleAddTask` from the source.  `nanoid()` is modelled by the
parameter `freshId` (the generator's output for this call).  If the
trimmed input is empty the handler returns early; otherwise it appends
the new task, clears the input and shows `added` feedback. -/
def handleAddTask (freshId : String) (s : AppState) : AppState :=
  if (strTrim s.inputText).isEmpty then s
  else
    { s with
      tasks := s.tasks ++ [{ id := freshId, text := strTrim s.inputText, completed := false }]
      inputText := ""
      fb := showFeedback FeedbackType.added s.fb }

/-- The per-task updater inside `handleToggleComplete`'s `map`:
`t.id === id ? { ...t, completed: !t.completed } : t`. -/
def toggleFn (id : String) (t : TaskType) : TaskType :=
  if t.id == id then { t with completed := !t.completed } else t

/-- The updater inside `handleToggleComplete`: flip `completed` on every
task whose id matches. -/
def toggleMap (id : String) (tasks : List TaskType) : List TaskType :=
  tasks.map (toggleFn id)

/-- Handler `handleToggleComplete` from the source: map over the tasks flipping
the matching one's flag, then look the task up in the *new* list and
show `completed` feedback if its flag is (now) true, `uncompleted`
otherwise.  Note `task?.completed` is falsy when no task matched, so
the `else` branch (`uncompleted`) runs in that case too. -/
def handleToggleComplete (id : String) (s : AppState) : AppState :=
  let next := toggleMap id s.tasks
  let fb :=
    match next.find? (fun t => t.id == id) with
    | some task =>
        if task.completed then showFeedback FeedbackType.completed s.fb
        else showFeedback FeedbackType.uncompleted s.fb
    | none => showFeedback FeedbackType.uncompleted s.fb
  { s with tasks := next, fb := fb }

/-- Handler `handleDelete` from the source: keep every task whose id differs,
then show `deleted` feedback unconditionally. -/
def handleDelete (id : String) (s : AppState) : AppState :=
  { s with
    tasks := s.tasks.filter (fun t => t.id ≠ id)
    fb := showFeedback FeedbackType.deleted s.fb }

/-! ### Helper lemmas -/

/-- Triggering always leaves the triggered kind visible. -/
theorem showFeedback_feedbackType (k : FeedbackType) (s : FeedbackState) :
    (showFeedback k s).feedbackType = some k := by
  cases h : s.feedbackTimeoutRef <;> simp [showFeedback, h]

/-- Triggering always clears the image-error flag. -/
theorem showFeedback_feedbackImageError (k : FeedbackType) (s : FeedbackState) :
    (showFeedback k s).feedbackImageError = false := by
  cases h : s.feedbackTimeoutRef <;> simp [showFeedback, h]

/-- When no task matches, the toggle updater leaves the list unchanged. -/
theorem toggleMap_of_no_match (id : String) (l : List TaskType)
    (h : ∀ t ∈ l, t.id ≠ id) : toggleMap id l = l := by
  induction l with
  | nil => rfl
  | cons a l ih =>
      have ha : (a.id == id) = false := by
        simpa using h a (List.mem_cons_self a l)
      have ihl := ih fun t ht => h t (List.mem_cons_of_mem a ht)
      simp only [toggleMap, List.map_cons] at ihl ⊢
      rw [ihl]
      simp [toggleFn, ha]

/-! ### Concrete states used by witnesses and counterexamples -/

/-- A concrete task. -/
def exTask : TaskType := { id := "a", text := "wash dishes", completed := false }

/-- A concrete screen state holding exactly [exTask]. -/
def exState : AppState := { tasks := [exTask], inputText := "", fb := initFeedback }

/-- The concrete state with a whitespace-only input buffer. -/
def exWsState : AppState := { tasks := [exTask], inputText := "   ", fb := initFeedback }

/-- The concrete state with a padded, non-empty input buffer. -/
def exAddState : AppState :=
  { tasks := [exTask], inputText := "  wash dishes  ", fb := initFeedback }

/-! ### C4: empty or whitespace-only add is a no-op -/

/-- C4: if the trimmed input is empty, `handleAddTask` changes nothing:
the task collection is unchanged and no feedback event is triggered
(the whole state is returned as-is). -/
theorem handleAddTask_empty_noop (freshId : String) (s : AppState)
    (h : (strTrim s.inputText).isEmpty = true) :
    handleAddTask freshId s = s := by
  simp [handleAddTask, h]

/-- Witness for C4 at a whitespace-only input. -/
theorem handleAddTask_empty_noop_witness :
    handleAddTask "n1" exWsState = exWsState :=
  handleAddTask_empty_noop "n1" exWsState (by decide)

/-! ### C10: the input buffer is cleared exactly on success -/

/-- C10: after `handleAddTask`, the stored input text is unchanged when
the trimmed input was empty, and the empty string otherwise. -/
theorem handleAddTask_inputText (freshId : String) (s : AppState) :
    (handleAddTask freshId s).inputText
      = if (strTrim s.inputText).isEmpty then s.inputText else "" := by
  by_cases h : (strTrim s.inputText).isEmpty <;> simp [handleAddTask, h]

/-! ### C3: successful add appends one fresh task and signals `added` -/

/-- C3: when the trimmed input is non-empty and the generated id is fresh
(distinct from every existing id, which is what `nanoid` provides),
`handleAddTask` appends exactly one task — completed `false`, text the
trimmed input, id the fresh one — at the end, leaving all earlier tasks
unchanged in value and order, and shows `added` feedback. -/
theorem handleAddTask_append (freshId : String) (s : AppState)
    (h : (strTrim s.inputText).isEmpty = false)
    (hfresh : ∀ t ∈ s.tasks, t.id ≠ freshId) :
    (handleAddTask freshId s).tasks
      = s.tasks ++ [{ id := freshId, text := strTrim s.inputText, completed := false }]
    ∧ (∀ t ∈ s.tasks, t.id ≠ freshId)
    ∧ (handleAddTask freshId s).fb.feedbackType = some FeedbackType.added := by
  refine ⟨?_, hfresh, ?_⟩ <;> simp [handleAddTask, h, showFeedback_feedbackType]

/-- Witness for C3: adding "  wash dishes  " to the singleton state. -/
theorem handleAddTask_append_witness :
    (handleAddTask "n1" exAddState).tasks
      = exAddState.tasks ++ [{ id := "n1", text := strTrim "  wash dishes  ", completed := false }]
    ∧ (∀ t ∈ exAddState.tasks, t.id ≠ "n1")
    ∧ (handleAddTask "n1" exAddState).fb.feedbackType = some FeedbackType.added :=
  handleAddTask_append "n1" exAddState (by decide) (by decide)

/-! ### C6: delete removes exactly the matching tasks, signals `deleted` unconditionally -/

/-- Counting helper: the tasks kept by a delete plus the tasks matching
the id add up to the whole list. -/
theorem length_filter_ne_add_countP (id : String) (l : List TaskType) :
    (l.filter (fun t => t.id ≠ id)).length + l.countP (fun t => t.id == id) = l.length := by
  induction l with
  | nil => rfl
  | cons a l ih =>
      by_cases ha : a.id = id <;>
        simp [List.filter_cons, List.countP_cons, ha] at ih ⊢ <;> omega

/-- C6: `handleDelete id` keeps exactly the tasks whose id differs
(hence removes exactly the matching ones — one per occurrence of the
id, none when absent), in their original relative order and values
(the result is a sublist of the original), and shows `deleted`
feedback unconditionally. -/
theorem handleDelete_spec (id : String) (s : AppState) :
    (handleDelete id s).tasks = s.tasks.filter (fun t => t.id ≠ id)
    ∧ (∀ t ∈ (handleDelete id s).tasks, t.id ≠ id)
    ∧ (handleDelete id s).tasks.Sublist s.tasks
    ∧ (handleDelete id s).tasks.length + s.tasks.countP (fun t => t.id == id) = s.tasks.length
    ∧ (handleDelete id s).fb.feedbackType = some FeedbackType.deleted := by
  refine ⟨rfl, ?_, ?_, ?_, showFeedback_feedbackType _ _⟩
  · intro t ht
    have hm := List.mem_filter.mp
      (show t ∈ s.tasks.filter (fun u => u.id ≠ id) from ht)
    simpa using hm.2
  · exact List.filter_sublist s.tasks
  · exact length_filter_ne_add_countP id s.tasks

/-- Witness for C6: deleting the one task of the singleton state. -/
theorem handleDelete_spec_witness :
    (handleDelete "a" exState).tasks = exState.tasks.filter (fun t => t.id ≠ "a") :=
  (handleDelete_spec "a" exState).1

/-! ### C8: the asset-error fallback flag -/

/-- C8: every `showFeedback` call resets the fallback flag to `false`;
an asset-load failure (`onImageError`) only sets the flag — it changes
no other controller state, and a subsequent trigger behaves exactly as
if the failure had not happened; a firing expiry timer also leaves the
flag `false` (and a non-firing one changes nothing). -/
theorem feedback_asset_error_fallback (k : FeedbackType) (s : FeedbackState) :
    (showFeedback k s).feedbackImageError = false
    ∧ showFeedback k (onImageError s) = showFeedback k s
    ∧ (onImageError s).feedbackType = s.feedbackType
    ∧ (onImageError s).pending = s.pending
    ∧ (onImageError s).feedbackImageError = true
    ∧ (∀ tid, (fireTimer tid s).feedbackImageError = false ∨ fireTimer tid s = s) := by
  refine ⟨showFeedback_feedbackImageError k s, ?_, rfl, rfl, rfl, ?_⟩
  · cases h : s.feedbackTimeoutRef <;> simp [showFeedback, onImageError, clearTimeout, h]
  · intro tid
    rcases hf : s.pending.find? (fun p => p.1 == tid) with _ | p
    · right; simp [fireTimer, hf]
    · by_cases hle : p.2 ≤ s.now
      · left; simp [fireTimer, hf, hle]
      · right; simp [fireTimer, hf, hle]

/-! ### C2: toggling a missing id -/

/-- C2 counterexample: in the concrete singleton state (task id "a",
no feedback active), toggling the absent id "b" leaves the tasks
unchanged but DOES trigger a feedback event — `feedbackType` goes from
`none` to `some uncompleted` — refuting "no feedback event of any kind
is triggered". -/
theorem handleToggleComplete_missing_counterexample :
    (∀ t ∈ exState.tasks, t.id ≠ "b")
    ∧ (handleToggleComplete "b" exState).tasks = exState.tasks
    ∧ exState.fb.feedbackType = none
    ∧ (handleToggleComplete "b" exState).fb.feedbackType = some FeedbackType.uncompleted := by
  decide

/-- C2 amended: for an id matching no task, `handleToggleComplete`
leaves the task collection (and the input buffer) unchanged, but it
does trigger the `uncompleted` feedback event (the undefined lookup
falls into the `else` branch of the feedback dispatch). -/
theorem handleToggleComplete_missing_amended (id : String) (s : AppState)
    (h : ∀ t ∈ s.tasks, t.id ≠ id) :
    (handleToggleComplete id s).tasks = s.tasks
    ∧ (handleToggleComplete id s).inputText = s.inputText
    ∧ (handleToggleComplete id s).fb = showFeedback FeedbackType.uncompleted s.fb := by
  have hmap := toggleMap_of_no_match id s.tasks h
  have hfind : s.tasks.find? (fun t => t.id == id) = none :=
    List.find?_eq_none.mpr (by simpa using h)
  refine ⟨?_, rfl, ?_⟩ <;> simp [handleToggleComplete, hmap, hfind]

/-- Witness for the amended C2 at the concrete singleton state. -/
theorem handleToggleComplete_missing_amended_witness :
    (handleToggleComplete "b" exState).tasks = exState.tasks
    ∧ (handleToggleComplete "b" exState).inputText = exState.inputText
    ∧ (handleToggleComplete "b" exState).fb = showFeedback FeedbackType.uncompleted exState.fb :=
  handleToggleComplete_missing_amended "b" exState (by decide)

/-! ### Toggle updater facts -/

/-- The toggle updater never changes a task's id. -/
theorem toggleFn_id_eq (id : String) (t : TaskType) : (toggleFn id t).id = t.id := by
  by_cases h : (t.id == id) = true <;> simp [toggleFn, h]

/-- The toggle updater never changes a task's text. -/
theorem toggleFn_text_eq (id : String) (t : TaskType) : (toggleFn id t).text = t.text := by
  by_cases h : (t.id == id) = true <;> simp [toggleFn, h]

/-- Applying the toggle updater twice restores the task. -/
theorem toggleFn_involutive (id : String) (t : TaskType) :
    toggleFn id (toggleFn id t) = t := by
  by_cases h : (t.id == id) = true <;> simp [toggleFn, h]

/-- Looking a task up after the toggle pass finds the toggled version of
the task the lookup would have found before the pass. -/
theorem toggleMap_find? (id : String) (l : List TaskType) :
    (toggleMap id l).find? (fun t => t.id == id)
      = (l.find? (fun t => t.id == id)).map (toggleFn id) := by
  unfold toggleMap
  rw [List.find?_map]
  congr 2
  funext t
  simp [Function.comp, toggleFn_id_eq]

/-- A double toggle pass restores the whole list. -/
theorem toggleMap_involutive (id : String) (l : List TaskType) :
    toggleMap id (toggleMap id l) = l := by
  unfold toggleMap
  rw [List.map_map]
  exact List.map_id'' (fun t => by simpa [Function.comp] using toggleFn_involutive id t) l

/-! ### C5: toggle is an involution on the flag, with matching feedback -/

/-- C5: for an id whose lookup finds task `t`, toggling flips the found
task's flag to `!t.completed`; a single call shows `completed` exactly
when the flag became true and `uncompleted` exactly when it became
false; toggling twice restores the whole task list (hence the flag),
and the two calls show `completed` then `uncompleted` when the flag
started false, `uncompleted` then `completed` when it started true. -/
theorem handleToggleComplete_twice (id : String) (s : AppState) (t : TaskType)
    (h : s.tasks.find? (fun u => u.id == id) = some t) :
    (handleToggleComplete id (handleToggleComplete id s)).tasks = s.tasks
    ∧ (handleToggleComplete id s).tasks.find? (fun u => u.id == id)
        = some { t with completed := !t.completed }
    ∧ (handleToggleComplete id s).fb.feedbackType
        = some (if t.completed then FeedbackType.uncompleted else FeedbackType.completed)
    ∧ (handleToggleComplete id (handleToggleComplete id s)).fb.feedbackType
        = some (if t.completed then FeedbackType.completed else FeedbackType.uncompleted) := by
  have ht : (t.id == id) = true := List.find?_some (p := fun u : TaskType => u.id == id) h
  have htoggle : toggleFn id t = { t with completed := !t.completed } := by
    simp [toggleFn, ht]
  have hfind1 : (toggleMap id s.tasks).find? (fun u => u.id == id)
      = some { t with completed := !t.completed } := by
    rw [toggleMap_find?, h]
    simp [htoggle]
  have hfind2 : (toggleMap id (toggleMap id s.tasks)).find? (fun u => u.id == id)
      = some t := by
    rw [toggleMap_involutive, h]
  refine ⟨?_, hfind1, ?_, ?_⟩
  · exact toggleMap_involutive id s.tasks
  · show (match (toggleMap id s.tasks).find? (fun u : TaskType => u.id == id) with
      | some task =>
          if task.completed then showFeedback FeedbackType.completed s.fb
          else showFeedback FeedbackType.uncompleted s.fb
      | none => showFeedback FeedbackType.uncompleted s.fb).feedbackType = _
    rw [hfind1]
    cases hc : t.completed <;> simp [hc, showFeedback_feedbackType]
  · show (match (toggleMap id (toggleMap id s.tasks)).find? (fun u : TaskType => u.id == id) with
      | some task =>
          if task.completed then showFeedback FeedbackType.completed (handleToggleComplete id s).fb
          else showFeedback FeedbackType.uncompleted (handleToggleComplete id s).fb
      | none => showFeedback FeedbackType.uncompleted (handleToggleComplete id s).fb).feedbackType = _
    rw [hfind2]
    cases hc : t.completed <;> simp [hc, showFeedback_feedbackType]

/-- Witness for C5: double-toggling the single task of the concrete
singleton state restores the list. -/
theorem handleToggleComplete_twice_witness :
    (handleToggleComplete "a" (handleToggleComplete "a" exState)).tasks = exState.tasks :=
  (handleToggleComplete_twice "a" exState exTask (by decide)).1

/-! ### C9: toggle only touches the matching task's completed field -/

/-- C9: `handleToggleComplete` preserves the list length, the input
buffer, and at every position the task's id and text; a task whose id
differs from the toggled id is completely unchanged, and a task whose
id matches has exactly its `completed` flag flipped. -/
theorem handleToggleComplete_frame (id : String) (s : AppState) (i : Nat)
    (h1 : i < s.tasks.length) (h2 : i < (handleToggleComplete id s).tasks.length) :
    (handleToggleComplete id s).tasks.length = s.tasks.length
    ∧ (handleToggleComplete id s).inputText = s.inputText
    ∧ ((handleToggleComplete id s).tasks.get ⟨i, h2⟩).id = (s.tasks.get ⟨i, h1⟩).id
    ∧ ((handleToggleComplete id s).tasks.get ⟨i, h2⟩).text = (s.tasks.get ⟨i, h1⟩).text
    ∧ ((s.tasks.get ⟨i, h1⟩).id ≠ id →
        (handleToggleComplete id s).tasks.get ⟨i, h2⟩ = s.tasks.get ⟨i, h1⟩)
    ∧ ((s.tasks.get ⟨i, h1⟩).id = id →
        ((handleToggleComplete id s).tasks.get ⟨i, h2⟩).completed
          = !(s.tasks.get ⟨i, h1⟩).completed) := by
  have hget : (handleToggleComplete id s).tasks.get ⟨i, h2⟩
      = toggleFn id (s.tasks.get ⟨i, h1⟩) := by
    show (toggleMap id s.tasks).get ⟨i, h2⟩ = toggleFn id (s.tasks.get ⟨i, h1⟩)
    simp [toggleMap]
  refine ⟨?_, rfl, ?_, ?_, ?_, ?_⟩
  · show (toggleMap id s.tasks).length = s.tasks.length
    simp [toggleMap]
  · rw [hget, toggleFn_id_eq]
  · rw [hget, toggleFn_text_eq]
  · intro hne
    have hc : ¬ (((s.tasks.get ⟨i, h1⟩).id == id) = true) := by simpa using hne
    rw [hget]
    simp only [toggleFn]
    rw [if_neg hc]
  · intro heq
    have hc : ((s.tasks.get ⟨i, h1⟩).id == id) = true := by simpa using heq
    rw [hget]
    simp only [toggleFn]
    rw [if_pos hc]

/-- Witness for C9: toggling "a" in the concrete singleton state keeps
the task's text at position 0. -/
theorem handleToggleComplete_frame_witness :
    ((handleToggleComplete "a" exState).tasks.get ⟨0, by decide⟩).text
      = (exState.tasks.get ⟨0, by decide⟩).text :=
  (handleToggleComplete_frame "a" exState 0 (by decide) (by decide)).2.2.2.1

/-! ### Timer invariant and closed form of a trigger -/

/-- Invariant of the controller's timer bookkeeping, as reached by the
code: every pending timer is the one held in `feedbackTimeoutRef`
(hence at most one is pending), and pending identifiers are older than
the fresh-identifier counter. -/
def TimerInv (s : FeedbackState) : Prop :=
  (∀ p ∈ s.pending, s.feedbackTimeoutRef = some p.1)
  ∧ s.pending.length ≤ 1
  ∧ (∀ p ∈ s.pending, p.1 < s.nextTimerId)

/-- The initial state satisfies the timer invariant. -/
theorem TimerInv_initFeedback : TimerInv initFeedback := by
  refine ⟨?_, ?_, ?_⟩ <;> simp [initFeedback]

/-- Closed form of a trigger from any state satisfying the invariant:
the old timer (if any) is cancelled, so afterwards exactly the freshly
scheduled timer is pending, due `FEEDBACK_DURATION_MS` from now. -/
theorem showFeedback_eq (k : FeedbackType) (s : FeedbackState) (hInv : TimerInv s) :
    showFeedback k s =
      { now := s.now, feedbackType := some k, feedbackImageError := false,
        feedbackTimeoutRef := some s.nextTimerId,
        pending := [(s.nextTimerId, s.now + FEEDBACK_DURATION_MS)],
        nextTimerId := s.nextTimerId + 1 } := by
  cases href : s.feedbackTimeoutRef with
  | none =>
      have hp : s.pending = [] := by
        cases hp : s.pending with
        | nil => rfl
        | cons a l =>
            have := hInv.1 a (by simp [hp])
            rw [href] at this
            exact absurd this (by simp)
      simp [showFeedback, href, hp]
  | some tid =>
      have hp : s.pending.filter (fun p => p.1 ≠ tid) = [] := by
        apply List.filter_eq_nil_iff.mpr
        intro p hp
        have := hInv.1 p hp
        rw [href] at this
        have : p.1 = tid := by injection this.symm
        simp [this]
      simp [showFeedback, clearTimeout, href, hp]
      intro a b hmem
      have := hInv.1 (a, b) hmem
      rw [href] at this
      exact (Option.some.inj this).symm

/-- Triggering preserves the timer invariant. -/
theorem TimerInv_showFeedback (k : FeedbackType) (s : FeedbackState)
    (hInv : TimerInv s) : TimerInv (showFeedback k s) := by
  rw [showFeedback_eq k s hInv]
  refine ⟨?_, ?_, ?_⟩ <;> simp [TimerInv]

/-- The passage of time preserves the timer invariant. -/
theorem TimerInv_elapse (d : Nat) (s : FeedbackState)
    (hInv : TimerInv s) : TimerInv (elapse d s) := hInv

/-- A host fire step preserves the timer invariant. -/
theorem TimerInv_fireTimer (tid : Nat) (s : FeedbackState)
    (hInv : TimerInv s) : TimerInv (fireTimer tid s) := by
  rcases hf : s.pending.find? (fun p => p.1 == tid) with _ | p
  · simpa [fireTimer, hf] using hInv
  · by_cases hle : p.2 ≤ s.now
    · refine ⟨?_, ?_, ?_⟩ <;> simp only [fireTimer, hf, hle, if_pos]
      · intro q hq
        exact hInv.1 q (List.mem_of_mem_filter hq)
      · exact le_trans (List.length_filter_le _ _) hInv.2.1
      · intro q hq
        exact hInv.2.2 q (List.mem_of_mem_filter hq)
    · simpa [fireTimer, hf, hle] using hInv

/-- A fire step for an identifier that is not pending does nothing. -/
theorem fireTimer_not_pending (tid : Nat) (s : FeedbackState)
    (h : ∀ p ∈ s.pending, p.1 ≠ tid) : fireTimer tid s = s := by
  have hf : s.pending.find? (fun p => p.1 == tid) = none :=
    List.find?_eq_none.mpr (fun p hp => by simpa using h p hp)
  simp [fireTimer, hf]

/-- A fire step for a timer whose fire time has not been reached does
nothing. -/
theorem fireTimer_not_due (tid : Nat) (s : FeedbackState)
    (h : ∀ p ∈ s.pending, p.1 = tid → s.now < p.2) : fireTimer tid s = s := by
  rcases hf : s.pending.find? (fun p => p.1 == tid) with _ | p
  · simp [fireTimer, hf]
  · have hmem := List.mem_of_find?_eq_some hf
    have hp1 : (p.1 == tid) = true :=
      List.find?_some (p := fun q : Nat × Nat => q.1 == tid) hf
    have hlt := h p hmem (by simpa using hp1)
    have hnle : ¬ (p.2 ≤ s.now) := by omega
    simp [fireTimer, hf, hnle]

/-- A fire step either leaves the visible kind unchanged or clears it;
it never installs a different kind. -/
theorem fireTimer_feedbackType (tid : Nat) (s : FeedbackState) :
    (fireTimer tid s).feedbackType = s.feedbackType
    ∨ (fireTimer tid s).feedbackType = none := by
  rcases hf : s.pending.find? (fun p => p.1 == tid) with _ | p
  · left; simp [fireTimer, hf]
  · by_cases hle : p.2 ≤ s.now
    · right; simp [fireTimer, hf, hle]
    · left; simp [fireTimer, hf, hle]

/-! ### C1: a second trigger supersedes the first -/

/-- C1: from any state satisfying the timer invariant, trigger A, let
`d < FEEDBACK_DURATION_MS` elapse (so A's window has not ended: no
timer can fire in between), then trigger B.  Afterwards the visible
kind is B; A's timer is cancelled — it is not pending and firing it at
any later time does nothing — exactly one timer (B's) is pending, the
invariant still holds, no fire step can ever make the visible kind
revert to A (it stays B or becomes none), and B's timer, once due,
fires and clears the notification, emptying the timer queue. -/
theorem feedback_supersede (A B : FeedbackType) (s : FeedbackState) (d : Nat)
    (hInv : TimerInv s) (hd : d < FEEDBACK_DURATION_MS) :
    (∀ tid, fireTimer tid (elapse d (showFeedback A s)) = elapse d (showFeedback A s))
    ∧ (showFeedback B (elapse d (showFeedback A s))).feedbackType = some B
    ∧ (∀ p ∈ (showFeedback B (elapse d (showFeedback A s))).pending,
        (showFeedback A s).feedbackTimeoutRef ≠ some p.1)
    ∧ (showFeedback B (elapse d (showFeedback A s))).pending.length = 1
    ∧ TimerInv (showFeedback B (elapse d (showFeedback A s)))
    ∧ (∀ tid e, (showFeedback A s).feedbackTimeoutRef = some tid →
        fireTimer tid (elapse e (showFeedback B (elapse d (showFeedback A s))))
          = elapse e (showFeedback B (elapse d (showFeedback A s))))
    ∧ (∀ tid e,
        (fireTimer tid (elapse e (showFeedback B (elapse d (showFeedback A s))))).feedbackType
            = some B
        ∨ (fireTimer tid (elapse e (showFeedback B (elapse d (showFeedback A s))))).feedbackType
            = none)
    ∧ (∀ tid, (showFeedback B (elapse d (showFeedback A s))).feedbackTimeoutRef = some tid →
        (fireTimer tid (elapse FEEDBACK_DURATION_MS
            (showFeedback B (elapse d (showFeedback A s))))).feedbackType = none
        ∧ (fireTimer tid (elapse FEEDBACK_DURATION_MS
            (showFeedback B (elapse d (showFeedback A s))))).pending = []) := by
  have hA := showFeedback_eq A s hInv
  have hInvE : TimerInv (elapse d (showFeedback A s)) :=
    TimerInv_elapse d _ (TimerInv_showFeedback A s hInv)
  have hB2 : showFeedback B (elapse d (showFeedback A s)) =
      { now := s.now + d, feedbackType := some B, feedbackImageError := false,
        feedbackTimeoutRef := some (s.nextTimerId + 1),
        pending := [(s.nextTimerId + 1, s.now + d + FEEDBACK_DURATION_MS)],
        nextTimerId := s.nextTimerId + 1 + 1 } := by
    rw [showFeedback_eq B (elapse d (showFeedback A s)) hInvE, hA]
    simp [elapse]
  refine ⟨?_, showFeedback_feedbackType B _, ?_, ?_, TimerInv_showFeedback B _ hInvE,
    ?_, ?_, ?_⟩
  · intro tid
    rw [hA]
    apply fireTimer_not_due
    intro p hp _
    simp only [elapse, List.mem_singleton] at hp
    subst hp
    show (elapse d _).now < _
    simp only [elapse]
    omega
  · intro p hp
    rw [hB2] at hp
    simp only [List.mem_singleton] at hp
    subst hp
    rw [hA]
    simp
  · rw [hB2]
    rfl
  · intro tid e htid
    rw [hA] at htid
    have htid2 : tid = s.nextTimerId := by
      simpa using htid.symm
    subst htid2
    rw [hB2]
    apply fireTimer_not_pending
    intro p hp
    simp only [elapse, List.mem_singleton] at hp
    subst hp
    simp
  · intro tid e
    rcases fireTimer_feedbackType tid
        (elapse e (showFeedback B (elapse d (showFeedback A s)))) with h | h
    · left
      rw [h]
      show (showFeedback B (elapse d (showFeedback A s))).feedbackType = some B
      exact showFeedback_feedbackType B _
    · right
      exact h
  · intro tid htid
    rw [hB2] at htid ⊢
    have htid2 : tid = s.nextTimerId + 1 := by
      simpa using htid.symm
    subst htid2
    constructor <;> simp [fireTimer, elapse, List.find?]

/-- Witness for C1: from the initial state, trigger `deleted`, wait
100 ms, trigger `added`: the visible kind is `added`. -/
theorem feedback_supersede_witness :
    (showFeedback FeedbackType.added
        (elapse 100 (showFeedback FeedbackType.deleted initFeedback))).feedbackType
      = some FeedbackType.added :=
  (feedback_supersede FeedbackType.deleted FeedbackType.added initFeedback 100
    TimerInv_initFeedback (by decide)).2.1

/-! ### C7: the expiry fires exactly at the fixed duration, once -/

/-- C7: a trigger schedules its expiry timer exactly
`FEEDBACK_DURATION_MS` after the trigger instant and records it in the
ref; before that duration has elapsed no fire step can do anything;
once it has elapsed, firing the scheduled timer clears the visible
kind to `none` (and the fallback flag), consumes the timer, and any
further fire step — in particular a second elapsed-duration check — is
a no-op, so the dismissal happens exactly once. -/
theorem feedback_expiry (k : FeedbackType) (s : FeedbackState) (hInv : TimerInv s) :
    (showFeedback k s).pending = [(s.nextTimerId, s.now + FEEDBACK_DURATION_MS)]
    ∧ (showFeedback k s).feedbackTimeoutRef = some s.nextTimerId
    ∧ (∀ d, d < FEEDBACK_DURATION_MS → ∀ tid,
        fireTimer tid (elapse d (showFeedback k s)) = elapse d (showFeedback k s))
    ∧ (∀ d, FEEDBACK_DURATION_MS ≤ d →
        (fireTimer s.nextTimerId (elapse d (showFeedback k s))).feedbackType = none
        ∧ (fireTimer s.nextTimerId (elapse d (showFeedback k s))).feedbackImageError = false
        ∧ (fireTimer s.nextTimerId (elapse d (showFeedback k s))).pending = []
        ∧ (∀ tid, fireTimer tid (fireTimer s.nextTimerId (elapse d (showFeedback k s)))
            = fireTimer s.nextTimerId (elapse d (showFeedback k s)))) := by
  have hk := showFeedback_eq k s hInv
  refine ⟨by rw [hk], by rw [hk], ?_, ?_⟩
  · intro d hd tid
    rw [hk]
    apply fireTimer_not_due
    intro p hp _
    simp only [elapse, List.mem_singleton] at hp
    subst hp
    show (elapse d _).now < _
    simp only [elapse]
    omega
  · intro d hd
    rw [hk]
    have hle : s.now + FEEDBACK_DURATION_MS ≤ s.now + d := by omega
    have hpend : (fireTimer s.nextTimerId (elapse d
        { now := s.now, feedbackType := some k, feedbackImageError := false,
          feedbackTimeoutRef := some s.nextTimerId,
          pending := [(s.nextTimerId, s.now + FEEDBACK_DURATION_MS)],
          nextTimerId := s.nextTimerId + 1 })).pending = [] := by
      simp [fireTimer, elapse, hle]
    refine ⟨?_, ?_, hpend, ?_⟩
    · simp [fireTimer, elapse, hle]
    · simp [fireTimer, elapse, hle]
    · intro tid
      apply fireTimer_not_pending
      intro p hp
      rw [hpend] at hp
      simp at hp

/-- Witness for C7: the first trigger from the initial state schedules
timer 0 due at `FEEDBACK_DURATION_MS`. -/
theorem feedback_expiry_witness :
    (showFeedback FeedbackType.added initFeedback).pending
      = [(initFeedback.nextTimerId, initFeedback.now + FEEDBACK_DURATION_MS)] :=
  (feedback_expiry FeedbackType.added initFeedback TimerInv_initFeedback).1
